import Mathlib

/-!
Shallow embedding of the hpc_streaming_skeletons benchmark harness
(src/zmq/python/src/hpc_streaming_skeletons/): models.py, utils.py,
coordinator.py, worker.py and settings.py, together with theorems about
the control-plane protocol, the registry, port allocation, JSON
round-trips and throughput accounting.
-/

set_option maxHeartbeats 1000000

namespace HpcStreamingSkeletons

/-! ## models.py -/

/-- Role enum from models.py. -/
inductive Role where
  | sender
  | receiver
  deriving DecidableEq, Repr

/-- Serialized value of a Role (str Enum in models.py). -/
def Role.value : Role → String
  | .sender => "sender"
  | .receiver => "receiver"

/-- Inverse of Role.value, as pydantic validates a JSON string into the enum. -/
def Role.ofValue : String → Option Role
  | "sender" => some .sender
  | "receiver" => some .receiver
  | _ => none

/-- CoordinationSignal enum from models.py. -/
inductive CoordinationSignal where
  | CONFIG
  | START
  | FINISH
  | STOP_END_LOOP
  deriving DecidableEq, Repr

/-- Serialized value of a CoordinationSignal (str Enum in models.py). -/
def CoordinationSignal.value : CoordinationSignal → String
  | .CONFIG => "CONFIG"
  | .START => "START"
  | .FINISH => "FINISH"
  | .STOP_END_LOOP => "STOP_END_LOOP"

/-- ReceiveCallback enum from models.py. -/
inductive ReceiveCallback where
  | NONE
  | WRITE_NPY
  deriving DecidableEq, Repr

/-- Serialized value of a ReceiveCallback (str Enum in models.py). -/
def ReceiveCallback.value : ReceiveCallback → String
  | .NONE => "none"
  | .WRITE_NPY => "write_npy"

/-- Inverse of ReceiveCallback.value, as pydantic validates a JSON string. -/
def ReceiveCallback.ofValue : String → Option ReceiveCallback
  | "none" => some .NONE
  | "write_npy" => some .WRITE_NPY
  | _ => none

/-- WorkerState enum from models.py. -/
inductive WorkerState where
  | CONNECTING_TO_COORDINATOR
  | CONNECTED_TO_SYNC
  | RECEIVED_CONFIG
  | READY_TO_TEST
  | RUNNING_TEST
  | FINISHED_TEST
  deriving DecidableEq, Repr

/-- Serialized value of a WorkerState (str Enum in models.py). -/
def WorkerState.value : WorkerState → String
  | .CONNECTING_TO_COORDINATOR => "CONNECTING_TO_COORDINATOR"
  | .CONNECTED_TO_SYNC => "CONNECTED_TO_SYNC"
  | .RECEIVED_CONFIG => "RECEIVED_CONFIG"
  | .READY_TO_TEST => "READY_TO_TEST"
  | .RUNNING_TEST => "RUNNING_TEST"
  | .FINISHED_TEST => "FINISHED_TEST"

/-- Inverse of WorkerState.value, as pydantic validates a JSON string. -/
def WorkerState.ofValue : String → Option WorkerState
  | "CONNECTING_TO_COORDINATOR" => some .CONNECTING_TO_COORDINATOR
  | "CONNECTED_TO_SYNC" => some .CONNECTED_TO_SYNC
  | "RECEIVED_CONFIG" => some .RECEIVED_CONFIG
  | "READY_TO_TEST" => some .READY_TO_TEST
  | "RUNNING_TEST" => some .RUNNING_TEST
  | "FINISHED_TEST" => some .FINISHED_TEST
  | _ => none

/-- The allowed_transitions dict inside WorkerState.transition_allowed
(models.py lines 61-70). -/
def WorkerState.allowedTransitions : WorkerState → List WorkerState
  | .CONNECTING_TO_COORDINATOR => [.CONNECTED_TO_SYNC]
  | .CONNECTED_TO_SYNC => [.RECEIVED_CONFIG]
  | .RECEIVED_CONFIG => [.READY_TO_TEST]
  | .READY_TO_TEST => [.RUNNING_TEST]
  | .RUNNING_TEST => [.FINISHED_TEST]
  | .FINISHED_TEST => [.RECEIVED_CONFIG]

/-- WorkerState.transition_allowed from models.py: membership of next_state in
the allowed_transitions entry of self. -/
def WorkerState.transition_allowed (s next : WorkerState) : Bool :=
  decide (next ∈ s.allowedTransitions)

/-- WorkerCreate model from models.py. -/
structure WorkerCreate where
  worker_id : String
  role : Role
  deriving DecidableEq, Repr

/-- TestConfigCreate model from models.py: the per-test knobs. Python ints are
modelled as Int. -/
structure TestConfigCreate where
  count : Int
  size : Int
  zero_copy : Bool
  pub : Bool
  rcvhwm : Int
  sndhwm : Int
  recv_callback : ReceiveCallback
  deriving DecidableEq, Repr

/-- TestConfig model from models.py: TestConfigCreate plus test_number. -/
structure TestConfig where
  count : Int
  size : Int
  zero_copy : Bool
  pub : Bool
  rcvhwm : Int
  sndhwm : Int
  recv_callback : ReceiveCallback
  test_number : Int
  deriving DecidableEq, Repr

/-- TestResult model from models.py. Wall-clock floats are modelled as
rationals. -/
structure TestResult where
  worker_id : String
  role : Role
  config : TestConfig
  messages_sent : Option Int := none
  messages_received : Option Int := none
  throughput_mbps : ℚ
  start_time : ℚ
  end_time : ℚ
  deriving DecidableEq, Repr

/-- Worker model from models.py: WorkerCreate plus the coordinator-side
bookkeeping fields, with their declared defaults. -/
structure Worker where
  worker_id : String
  role : Role
  id : String
  state : WorkerState := .CONNECTING_TO_COORDINATOR
  group_id : Option Nat := none
  test_number : Option Int := none
  deriving DecidableEq, Repr

/-- WorkerUpdate model from models.py. -/
structure WorkerUpdate where
  state : WorkerState
  test_number : Option Int := none
  result : Option TestResult := none
  deriving DecidableEq, Repr

/-- GroupSetupInfo model from models.py. -/
structure GroupSetupInfo where
  receiver_ports : List Int
  data_port : Int
  group_id : Nat
  index : Nat
  deriving DecidableEq, Repr

/-! ## JSON values

Control-plane payloads are UTF-8 JSON. A JSON value is modelled
structurally; numbers keep the int/float distinction Python makes. -/

/-- A JSON value as exchanged over the control plane. -/
inductive JsonValue where
  | jint (n : Int)
  | jfloat (q : ℚ)
  | jstr (s : String)
  | jbool (b : Bool)
  | jnull
  | jobj (fields : List (String × JsonValue))
  deriving Repr

/-- A JSON object: an ordered list of key/value fields. -/
abbrev JsonObject := List (String × JsonValue)

/-- First value bound to a key in a JSON object (JSON objects from this code
never repeat keys). -/
def lookupField : JsonObject → String → Option JsonValue
  | [], _ => none
  | (k, v) :: rest, key => if k = key then some v else lookupField rest key

/-- Read a required int field, as pydantic does for an int-typed field. -/
def getInt (o : JsonObject) (k : String) : Option Int :=
  match lookupField o k with
  | some (.jint n) => some n
  | _ => none

/-- Read a required bool field. -/
def getBool (o : JsonObject) (k : String) : Option Bool :=
  match lookupField o k with
  | some (.jbool b) => some b
  | _ => none

/-- Read a required string field. -/
def getStr (o : JsonObject) (k : String) : Option String :=
  match lookupField o k with
  | some (.jstr s) => some s
  | _ => none

/-- Read a float-typed field; pydantic accepts a JSON int there as well. -/
def getFloat (o : JsonObject) (k : String) : Option ℚ :=
  match lookupField o k with
  | some (.jfloat q) => some q
  | some (.jint n) => some (n : ℚ)
  | _ => none

/-- Read an Optional[int] field defaulting to None: absent or null is None,
an int is Some, anything else fails validation. -/
def getOptInt (o : JsonObject) (k : String) : Option (Option Int) :=
  match lookupField o k with
  | none => some none
  | some .jnull => some none
  | some (.jint n) => some (some n)
  | _ => none

/-! ## Serialization and validation of the control-plane models

model_dump_json lists fields in declaration order; model_validate_json on
these plain-BaseModel pydantic models enforces required fields and, with
the default model config, silently ignores unknown fields. -/

/-- TestConfig.model_dump_json as the coordinator emits it (coordinator.py
line 339): all eight fields in declaration order. -/
def TestConfig.model_dump_json (c : TestConfig) : JsonObject :=
  [("count", .jint c.count),
   ("size", .jint c.size),
   ("zero_copy", .jbool c.zero_copy),
   ("pub", .jbool c.pub),
   ("rcvhwm", .jint c.rcvhwm),
   ("sndhwm", .jint c.sndhwm),
   ("recv_callback", .jstr c.recv_callback.value),
   ("test_number", .jint c.test_number)]

/-- Parsing of a TestConfig as the worker does (worker.py line 120,
TestConfig(**json.loads(...))): every field is required; unknown fields are
ignored by pydantic's default config. -/
def TestConfig.model_validate (o : JsonObject) : Option TestConfig := do
  let count ← getInt o "count"
  let size ← getInt o "size"
  let zero_copy ← getBool o "zero_copy"
  let pub ← getBool o "pub"
  let rcvhwm ← getInt o "rcvhwm"
  let sndhwm ← getInt o "sndhwm"
  let recv_callback ← (getStr o "recv_callback").bind ReceiveCallback.ofValue
  let test_number ← getInt o "test_number"
  pure ⟨count, size, zero_copy, pub, rcvhwm, sndhwm, recv_callback, test_number⟩

/-- Parsing of a WorkerCreate registration record (utils.validate_msg with
expected_type=WorkerCreate): worker_id and role are required; unknown fields
are ignored by pydantic's default config. -/
def WorkerCreate.model_validate (o : JsonObject) : Option WorkerCreate := do
  let worker_id ← getStr o "worker_id"
  let role ← (getStr o "role").bind Role.ofValue
  pure ⟨worker_id, role⟩

/-- Parsing of a nested TestResult object inside a WorkerUpdate. -/
def TestResult.model_validate (o : JsonObject) : Option TestResult := do
  let worker_id ← getStr o "worker_id"
  let role ← (getStr o "role").bind Role.ofValue
  let config ←
    match lookupField o "config" with
    | some (.jobj co) => TestConfig.model_validate co
    | _ => none
  let messages_sent ← getOptInt o "messages_sent"
  let messages_received ← getOptInt o "messages_received"
  let throughput_mbps ← getFloat o "throughput_mbps"
  let start_time ← getFloat o "start_time"
  let end_time ← getFloat o "end_time"
  pure ⟨worker_id, role, config, messages_sent, messages_received,
        throughput_mbps, start_time, end_time⟩

/-- Parsing of a WorkerUpdate record (utils.validate_msg with
expected_type=WorkerUpdate): state is required, test_number and result
default to None; unknown fields are ignored by pydantic's default config. -/
def WorkerUpdate.model_validate (o : JsonObject) : Option WorkerUpdate := do
  let state ← (getStr o "state").bind WorkerState.ofValue
  let test_number ← getOptInt o "test_number"
  let result ←
    match lookupField o "result" with
    | none => some none
    | some .jnull => some none
    | some (.jobj ro) => (TestResult.model_validate ro).map some
    | some _ => none
  pure ⟨state, test_number, result⟩

/-! ## utils.py -/

/-- calculate_throughput from utils.py, with wall-clock floats as
rationals. -/
def calculate_throughput (messages : Int) (size : Int) (start_time end_time : ℚ) : ℚ :=
  let elapsed_time : ℚ := end_time - start_time
  if elapsed_time ≤ 0 then 0
  else (messages * size * 8) / (elapsed_time * 1000000)

/-! ## Coordinator registry (coordinator.py, class WorkerRegistry)

WorkerRegistry subclasses dict[bytes, Worker]. A Python dict preserves
insertion order and overwrites in place on assignment to an existing key;
it is modelled as an ordered association list with exactly that update
rule. Identity bytes are modelled as String. -/

/-- Python dict item assignment d[k] = v: replace in place when the key is
present, append otherwise. -/
def dictSet : List (String × Worker) → String → Worker → List (String × Worker)
  | [], k, v => [(k, v)]
  | (k', v') :: rest, k, v =>
    if k' = k then (k, v) :: rest else (k', v') :: dictSet rest k v

/-- Python dict lookup d.get(k) / membership test. -/
def dictGet : List (String × Worker) → String → Option Worker
  | [], _ => none
  | (k', v') :: rest, k => if k' = k then some v' else dictGet rest k

/-- The registry contents: ordered key/value pairs of a
WorkerRegistry. Group and port counters are carried alongside in
CoordState. -/
abbrev Registry := List (String × Worker)

/-- WorkerRegistry.register: self[worker.id] = worker. -/
def WorkerRegistry.register (reg : Registry) (w : Worker) : Registry :=
  dictSet reg w.id w

/-- WorkerRegistry.check_all_state: False on an empty registry, else all
workers in the given state. -/
def check_all_state (reg : Registry) (s : WorkerState) : Bool :=
  !reg.isEmpty && reg.all (fun p => decide (p.2.state = s))

/-- WorkerRegistry.check_all_test_number: False on an empty registry, else
all workers at the given test number. -/
def check_all_test_number (reg : Registry) (n : Int) : Bool :=
  !reg.isEmpty && reg.all (fun p => decide (p.2.test_number = some n))

/-- WorkerRegistry.unpaired_senders: registered senders without a group, in
insertion order. -/
def unpaired_senders (reg : Registry) : List Worker :=
  (reg.map Prod.snd).filter (fun w => decide (w.role = Role.sender ∧ w.group_id = none))

/-- WorkerRegistry.unpaired_receivers: registered receivers without a group,
in insertion order. -/
def unpaired_receivers (reg : Registry) : List Worker :=
  (reg.map Prod.snd).filter (fun w => decide (w.role = Role.receiver ∧ w.group_id = none))

/-- WorkerRegistry.able_to_group. -/
def able_to_group (reg : Registry) (receivers_per_sender : Nat) : Bool :=
  decide (0 < (unpaired_senders reg).length) &&
    decide (receivers_per_sender ≤ (unpaired_receivers reg).length)

/-- WorkerRegistry.num_groups: the number of distinct group ids assigned in
the registry (the code collects them into a set). -/
def num_groups (reg : Registry) : Nat :=
  ((reg.map Prod.snd).filterMap Worker.group_id).toFinset.card

/-- WorkerRegistry.num_workers. -/
def num_workers (reg : Registry) : Nat := reg.length

/-- WorkerRegistry.allocate_ports (coordinator.py lines 88-103), acting on
the _next_port_offset counter: returns ((data_port, receiver_ports),
new offset). -/
def allocate_ports (off : Nat) (num_receivers : Nat) (sender_bind : Bool) :
    (Nat × List Nat) × Nat :=
  if sender_bind then
    ((off, List.replicate num_receivers off), off + 1)
  else
    ((off, (List.range num_receivers).map (fun i => off + i)), off + num_receivers)

/-- A run of consecutive allocate_ports calls, one per group, threading the
offset; returns the per-group allocations in order. -/
def allocate_run (off : Nat) : List Nat → Bool → List (Nat × List Nat)
  | [], _ => []
  | k :: ks, sb =>
    let r := allocate_ports off k sb
    r.1 :: allocate_run r.2 ks sb

/-- WorkerRegistry.create_group: assign the (fresh) group id to the sender
and each receiver, looked up by worker id. -/
def assign_group (reg : Registry) (ids : List String) (gid : Nat) : Registry :=
  reg.map (fun p => if p.1 ∈ ids then (p.1, { p.2 with group_id := some gid }) else p)

/-- The mutable coordinator-side state: the registry dict plus the
_next_group_id and _next_port_offset counters of WorkerRegistry. -/
structure CoordState where
  registry : Registry
  next_group_id : Nat
  next_port_offset : Nat
  deriving Repr

/-- A fresh WorkerRegistry. -/
def initCoordState : CoordState := ⟨[], 0, 0⟩

/-- The group-formation tail of register_worker (coordinator.py lines
183-228): pick the oldest unpaired sender and the oldest
receivers_per_sender unpaired receivers, create the group and allocate
ports. -/
def try_form_group (st : CoordState) (receivers_per_sender : Nat)
    (sender_bind : Bool) : CoordState :=
  match unpaired_senders st.registry with
  | [] => st
  | sender :: _ =>
    let receivers := (unpaired_receivers st.registry).take receivers_per_sender
    if receivers.length < receivers_per_sender then st
    else
      let group_id := st.next_group_id
      let reg2 := assign_group st.registry
        (sender.id :: receivers.map Worker.id) group_id
      let alloc := allocate_ports st.next_port_offset receivers.length sender_bind
      { registry := reg2, next_group_id := group_id + 1, next_port_offset := alloc.2 }

/-- register_worker from coordinator.py (lines 167-228), restricted to its
registry-state effect: insert the new worker record and, when a group can be
formed, form it. -/
def register_worker (st : CoordState) (id : String) (c : WorkerCreate)
    (receivers_per_sender : Nat) (sender_bind : Bool) : CoordState :=
  let w : Worker := { worker_id := c.worker_id, role := c.role, id := id }
  let st1 : CoordState := { st with registry := dictSet st.registry id w }
  if able_to_group st1.registry receivers_per_sender then
    try_form_group st1 receivers_per_sender sender_bind
  else
    st1

/-- update_worker from coordinator.py (lines 146-164), restricted to its
registry-state effect: none models the ValueError raised on an unknown
identity. -/
def update_worker (st : CoordState) (id : String) (u : WorkerUpdate) :
    Option CoordState :=
  match dictGet st.registry id with
  | none => none
  | some w =>
    some { st with
           registry := dictSet st.registry id
             { w with state := u.state, test_number := u.test_number } }

/-- A control-plane payload arriving on the ROUTER socket, already split by
schema; the coordinator decides which schema to validate against by whether
the identity is known. -/
inductive Payload where
  | create (c : WorkerCreate)
  | update (u : WorkerUpdate)
  deriving Repr

/-- One iteration of the coordinator assembly loop body (coordinator.py
lines 316-324): an unknown identity must validate as WorkerCreate, a known
one as WorkerUpdate; none models the fatal validation error otherwise. -/
def handle_frame (receivers_per_sender : Nat) (sender_bind : Bool)
    (st : CoordState) (fr : String × Payload) : Option CoordState :=
  if (dictGet st.registry fr.1).isSome then
    match fr.2 with
    | .update u => update_worker st fr.1 u
    | .create _ => none
  else
    match fr.2 with
    | .create c => some (register_worker st fr.1 c receivers_per_sender sender_bind)
    | .update _ => none

/-- The assembly loop processing a sequence of ROUTER frames. -/
def run_frames (receivers_per_sender : Nat) (sender_bind : Bool) :
    CoordState → List (String × Payload) → Option CoordState
  | st, [] => some st
  | st, fr :: rest =>
    match handle_frame receivers_per_sender sender_bind st fr with
    | none => none
    | some st2 => run_frames receivers_per_sender sender_bind st2 rest

/-- The assembly loop exit test (coordinator.py lines 305-310):
registry.num_groups >= settings.num_pairs and all workers
CONNECTED_TO_SYNC. -/
def assembly_ready (st : CoordState) (num_pairs : Nat) : Bool :=
  decide (num_pairs ≤ num_groups st.registry) &&
    check_all_state st.registry WorkerState.CONNECTED_TO_SYNC

/-- The number of registered senders. -/
def sender_count (reg : Registry) : Nat :=
  reg.countP (fun p => decide (p.2.role = Role.sender))

/-- The number of registered senders already assigned to a group. -/
def grouped_sender_count (reg : Registry) : Nat :=
  reg.countP (fun p => decide (p.2.role = Role.sender ∧ p.2.group_id ≠ none))

/-- The group-id column of the registry, in insertion order. -/
def gidList (reg : Registry) : List (Option Nat) :=
  reg.map (fun p => p.2.group_id)

/-- Structural invariant of the coordinator state maintained by the
assembly loop: entries are keyed by the worker's own identity, keys are
unique, every assigned group id is below the _next_group_id counter, and
the number of distinct groups equals the number of grouped senders (each
group owns exactly one sender). -/
def RegInv (st : CoordState) : Prop :=
  (∀ p ∈ st.registry, p.2.id = p.1) ∧
  (st.registry.map Prod.fst).Nodup ∧
  (∀ p ∈ st.registry, ∀ gid, p.2.group_id = some gid → gid < st.next_group_id) ∧
  num_groups st.registry = grouped_sender_count st.registry

/-- A frame sequence on which the assembly loop exits with two groups while
num_pairs = 1: two senders and two receivers all register before the sync
updates arrive, so two groups form. -/
def c6_frames : List (String × Payload) :=
  [("s1", .create ⟨"ws1", .sender⟩),
   ("s2", .create ⟨"ws2", .sender⟩),
   ("r1", .create ⟨"wr1", .receiver⟩),
   ("r2", .create ⟨"wr2", .receiver⟩),
   ("s1", .update ⟨.CONNECTED_TO_SYNC, none, none⟩),
   ("s2", .update ⟨.CONNECTED_TO_SYNC, none, none⟩),
   ("r1", .update ⟨.CONNECTED_TO_SYNC, none, none⟩),
   ("r2", .update ⟨.CONNECTED_TO_SYNC, none, none⟩)]

/-- A frame sequence for the intended one-pair deployment: one sender and
one receiver register and sync. -/
def c6_witness_frames : List (String × Payload) :=
  [("s1", .create ⟨"ws1", .sender⟩),
   ("r1", .create ⟨"wr1", .receiver⟩),
   ("s1", .update ⟨.CONNECTED_TO_SYNC, none, none⟩),
   ("r1", .update ⟨.CONNECTED_TO_SYNC, none, none⟩)]

/-- The coordinator state after processing c6_witness_frames with one
receiver per sender under receiver-bind. -/
def c6_witness_state : CoordState :=
  ⟨[("s1", { worker_id := "ws1", role := .sender, id := "s1",
             state := .CONNECTED_TO_SYNC, group_id := some 0, test_number := none }),
    ("r1", { worker_id := "wr1", role := .receiver, id := "r1",
             state := .CONNECTED_TO_SYNC, group_id := some 0, test_number := none })],
   1, 1⟩

/-! ## Coordinator broadcast trace (coordinator.py, def coordinator)

Per matrix entry the coordinator publishes the two-part CONFIG frame and,
after the RECEIVED_CONFIG and READY_TO_TEST milestones, the START string;
after the loop it publishes FINISH. No other pub_socket send exists in
coordinator.py. -/

/-- Topics the coordinator publishes while running one test (lines
336-362). -/
def coordinator_test_broadcast_topics : List CoordinationSignal :=
  [.CONFIG, .START]

/-- The full topic sequence the coordinator publishes on the PUB channel
over a run of the given test matrix (lines 331-380). -/
def coordinator_broadcast_topics (test_matrix : List TestConfigCreate) :
    List CoordinationSignal :=
  test_matrix.flatMap (fun _ => coordinator_test_broadcast_topics) ++ [.FINISH]

/-- The sender END-draining loop (worker.py lines 204-218) applied to the
stream of broadcast topics it receives on the SUB socket: each received
broadcast whose topic is not STOP_END_LOOP keeps the loop running; it
terminates exactly on a STOP_END_LOOP topic. -/
def end_drain_loop_terminates : List CoordinationSignal → Bool
  | [] => false
  | s :: rest =>
    if s = CoordinationSignal.STOP_END_LOOP then true
    else end_drain_loop_terminates rest

/-! ## Worker reported-state trace (worker.py, def worker)

The worker sends exactly these updates on the REQ socket: one
CONNECTED_TO_SYNC after subscribing, then per processed CONFIG broadcast a
RECEIVED_CONFIG, a READY_TO_TEST and a FINISHED_TEST update. No other
send_update call exists in worker.py. -/

/-- States carried by the three updates a worker sends per test
(worker.py lines 122-198). -/
def worker_test_states : List WorkerState :=
  [.RECEIVED_CONFIG, .READY_TO_TEST, .FINISHED_TEST]

/-- States reported over num_tests processed CONFIG broadcasts. -/
def worker_reported_states : Nat → List WorkerState
  | 0 => []
  | n + 1 => worker_test_states ++ worker_reported_states n

/-- The worker state trace: the initial CONNECTING_TO_COORDINATOR state of
its registry record followed by every state it reports. -/
def worker_trace (num_tests : Nat) : List WorkerState :=
  .CONNECTING_TO_COORDINATOR :: .CONNECTED_TO_SYNC :: worker_reported_states num_tests

/-- Adjacent pairs of a list, for stating trace invariants. -/
def adjacentPairs : List WorkerState → List (WorkerState × WorkerState)
  | a :: b :: rest => (a, b) :: adjacentPairs (b :: rest)
  | _ => []

/-! ## Data-plane reports (worker.py, def run_test) -/

/-- The dictionary returned by run_test's send closure (worker.py lines
234-263): the loop issues count sends, and messages_sent = config.count. -/
structure SenderReport where
  messages_sent : Int
  throughput_mbps : ℚ
  start_time : ℚ
  end_time : ℚ
  deriving Repr

/-- The send loop of run_test's send closure: for _ in range(count)
issues one data_socket.send of the payload per iteration. -/
def send_loop_messages (config : TestConfig) (msg : String) : List String :=
  List.replicate config.count.toNat msg

/-- run_test's send closure, with the measured wall-clock instants as
inputs; messages_sent is reported as config.count. -/
def run_test_send (config : TestConfig) (start_time end_time : ℚ) : SenderReport :=
  { messages_sent := config.count,
    throughput_mbps := calculate_throughput config.count config.size start_time end_time,
    start_time := start_time,
    end_time := end_time }

/-- The dictionary returned by run_test's receive closure (worker.py lines
265-300). -/
structure ReceiverReport where
  messages_received : Int
  throughput_mbps : ℚ
  start_time : ℚ
  end_time : ℚ
  deriving Repr

/-- The receive loop's counting: messages delivered before the first
"END" payload each bump messages_received; "END" stops the loop. -/
def count_received : List String → Nat
  | [] => 0
  | m :: rest => if m = "END" then 0 else count_received rest + 1

/-- run_test's receive closure over the sequence of payloads the data socket
delivers, with the measured wall-clock instants as inputs. -/
def run_test_receive (config : TestConfig) (delivered : List String)
    (start_time end_time : ℚ) : ReceiverReport :=
  let messages_received : Int := count_received delivered
  { messages_received := messages_received,
    throughput_mbps := calculate_throughput messages_received config.size start_time end_time,
    start_time := start_time,
    end_time := end_time }

/-! ## Result collection buckets (coordinator.py, wait_for_workers_state)

update_worker appends the update's result to the bucket only when a bucket
was passed and the update carries a result; the assembly loop and the first
two waits of each test pass no bucket; test_results is cleared immediately
before the FINISHED_TEST wait and saved right after it. -/

/-- update_worker's effect on the registry and the optional bucket. -/
def update_worker_bucket (reg : Registry) (bucket : Option (List TestResult))
    (fr : String × WorkerUpdate) :
    Option (Registry × Option (List TestResult)) :=
  match dictGet reg fr.1 with
  | none => none
  | some w =>
    let reg2 := dictSet reg fr.1
      { w with state := fr.2.state, test_number := fr.2.test_number }
    let bucket2 :=
      match bucket, fr.2.result with
      | some b, some r => some (b ++ [r])
      | _, _ => bucket
    some (reg2, bucket2)

/-- wait_for_workers_state processing a sequence of updates, threading the
registry and the optional bucket. -/
def process_updates (reg : Registry) (bucket : Option (List TestResult)) :
    List (String × WorkerUpdate) → Option (Registry × Option (List TestResult))
  | [] => some (reg, bucket)
  | fr :: rest =>
    match update_worker_bucket reg bucket fr with
    | none => none
    | some (reg2, bucket2) => process_updates reg2 bucket2 rest

/-- One iteration of the coordinator test loop (coordinator.py lines
344-375), as a function of the updates each of the three waits processes:
the RECEIVED_CONFIG and READY_TO_TEST waits run without a bucket, the
bucket is cleared before the FINISHED_TEST wait, and the bucket contents
after that wait are the rows saved for the test. -/
def run_test_waits (reg : Registry) (prev_bucket : List TestResult)
    (config_updates ready_updates finished_updates : List (String × WorkerUpdate)) :
    Option (Registry × List TestResult) :=
  match process_updates reg none config_updates with
  | none => none
  | some (reg1, _) =>
    match process_updates reg1 none ready_updates with
    | none => none
    | some (reg2, _) =>
      match process_updates reg2 (some (prev_bucket.take 0)) finished_updates with
      | none => none
      | some (reg3, bucket) => some (reg3, bucket.getD [])

/-! ## settings.py: environment overrides

BenchmarkSettings.model_config configures pydantic-settings with
env_prefix "PYZMQ_BENCH_" and env_nested_delimiter "__", so the lookup key
for a (possibly nested) settings field is the prefix followed by the
upper-cased path components joined by the delimiter. -/

/-- The env_prefix string from BenchmarkSettings.model_config. -/
def envPrefixStr : String := "PYZMQ_BENCH_"

/-- The env_nested_delimiter string from BenchmarkSettings.model_config. -/
def env_nested_delimiter : String := "__"

/-- Python str.upper restricted to ASCII, as applied to settings field
names. -/
def pyUpperChar (c : Char) : Char :=
  match c with
  | 'a' => 'A' | 'b' => 'B' | 'c' => 'C' | 'd' => 'D' | 'e' => 'E' | 'f' => 'F'
  | 'g' => 'G' | 'h' => 'H' | 'i' => 'I' | 'j' => 'J' | 'k' => 'K' | 'l' => 'L'
  | 'm' => 'M' | 'n' => 'N' | 'o' => 'O' | 'p' => 'P' | 'q' => 'Q' | 'r' => 'R'
  | 's' => 'S' | 't' => 'T' | 'u' => 'U' | 'v' => 'V' | 'w' => 'W' | 'x' => 'X'
  | 'y' => 'Y' | 'z' => 'Z' | c => c

/-- Python str.upper on a settings field name. -/
def pyUpper (s : String) : String := String.mk (s.data.map pyUpperChar)

/-- Modelled from pydantic-settings environment source semantics with the
model_config of BenchmarkSettings: the environment key for a settings field
path. -/
def settingsEnvKey (path : List String) : String :=
  envPrefixStr ++ String.intercalate env_nested_delimiter (path.map pyUpper)

/-- Modelled from pydantic-settings environment source semantics: the
override value the loader reads for a settings field path from an
environment. -/
def envOverride (env : List (String × String)) (path : List String) : Option String :=
  env.lookup (settingsEnvKey path)

/-- Every settings field path recognized by BenchmarkSettings and its nested
groups (settings.py). -/
def benchmarkSettingsFieldPaths : List (List String) :=
  [["logging", "level"], ["logging", "format"],
   ["network", "coordinator_ip"], ["network", "coordinator_router_port"],
   ["network", "coordinator_pub_port"], ["network", "data_port_start"],
   ["test_matrix", "message_counts"], ["test_matrix", "message_sizes"],
   ["test_matrix", "max_message_size"], ["test_matrix", "zero_copy_options"],
   ["test_matrix", "pub_sub_options"], ["test_matrix", "send_hwm_values"],
   ["test_matrix", "recv_hwm_values"],
   ["worker", "sender_bind"], ["worker", "setup_delay_s"],
   ["output", "add_date_time"], ["output", "results_file"],
   ["output", "config_file"], ["output", "plot_show"],
   ["output", "plot_figure_size"],
   ["num_pairs"], ["receivers_per_sender"], ["short_test"]]

/-! ## Theorems -/

/-! ### C7: TestConfig round trip -/

/-- C7: for every TestConfig value, serializing it as the coordinator does
and parsing that JSON as the worker does yields a TestConfig equal
field-by-field to the original, over all seven knobs plus test_number. -/
theorem c7_testconfig_roundtrip (c : TestConfig) :
    TestConfig.model_validate (TestConfig.model_dump_json c) = some c := by
  cases c with
  | mk count size zero_copy pub rcvhwm sndhwm recv_callback test_number =>
    cases recv_callback <;> rfl

/-! ### C8: throughput accounting -/

/-- C8: the sender reports messages_sent = count; for both roles the
throughput is messages * size * 8 / ((end_time - start_time) * 1_000_000)
whenever end_time - start_time > 0, and 0 when end_time - start_time <= 0. -/
theorem c8_throughput_accounting (c : TestConfig) (delivered : List String)
    (st et : ℚ) :
    (run_test_send c st et).messages_sent = c.count ∧
    (0 < et - st →
      (run_test_send c st et).throughput_mbps
          = ((c.count : ℚ) * (c.size : ℚ) * 8) / ((et - st) * 1000000) ∧
      (run_test_receive c delivered st et).throughput_mbps
          = ((count_received delivered : ℚ) * (c.size : ℚ) * 8) / ((et - st) * 1000000)) ∧
    (et - st ≤ 0 →
      (run_test_send c st et).throughput_mbps = 0 ∧
      (run_test_receive c delivered st et).throughput_mbps = 0) := by
  refine ⟨rfl, ?_, ?_⟩ <;> intro h
  · constructor <;>
      simp [run_test_send, run_test_receive, calculate_throughput, not_le.mpr h]
  · constructor <;>
      simp [run_test_send, run_test_receive, calculate_throughput, h]

/-- Witness for c8_throughput_accounting at a concrete config, both for a
positive elapsed time and for the count=1 boundary with equal timestamps. -/
theorem c8_throughput_accounting_witness :
    ((0:ℚ) < 2 - 1 ∧
      (run_test_send ⟨100, 64, false, false, 100, 100, .NONE, 0⟩ 1 2).throughput_mbps
        = (((100:Int) : ℚ) * ((64:Int) : ℚ) * 8) / (((2:ℚ) - 1) * 1000000)) ∧
    ((1:ℚ) - 1 ≤ 0 ∧
      (run_test_send ⟨1, 64, false, false, 100, 100, .NONE, 0⟩ 1 1).throughput_mbps = 0) :=
  ⟨⟨by norm_num,
      ((c8_throughput_accounting ⟨100, 64, false, false, 100, 100, .NONE, 0⟩ [] 1 2).2.1
        (by norm_num)).1⟩,
   ⟨by norm_num,
      ((c8_throughput_accounting ⟨1, 64, false, false, 100, 100, .NONE, 0⟩ [] 1 1).2.2
        (by norm_num)).1⟩⟩

/-! ### C9: environment overrides -/

/-- C9 counterexample: the key BENCH_NETWORK__COORDINATOR_IP from the claim
does not override network.coordinator_ip; the loader's key for that field is
PYZMQ_BENCH_NETWORK__COORDINATOR_IP. -/
theorem c9_counterexample :
    envOverride [("BENCH_NETWORK__COORDINATOR_IP", "10.0.0.1")]
        ["network", "coordinator_ip"] = none ∧
    settingsEnvKey ["network", "coordinator_ip"]
        = "PYZMQ_BENCH_NETWORK__COORDINATOR_IP" := by
  constructor <;> rfl

/-- C9 amended: every settings field path recognized by the loader is
overridable from the environment under the key built from the PYZMQ_BENCH_
prefix and the __ nested delimiter. -/
theorem c9_env_override (p : List String) (_hp : p ∈ benchmarkSettingsFieldPaths)
    (v : String) :
    envOverride [(settingsEnvKey p, v)] p = some v := by
  simp [envOverride, List.lookup]

/-- Witness for c9_env_override at network.coordinator_ip. -/
theorem c9_env_override_witness :
    ["network", "coordinator_ip"] ∈ benchmarkSettingsFieldPaths ∧
    envOverride [(settingsEnvKey ["network", "coordinator_ip"], "10.0.0.1")]
        ["network", "coordinator_ip"] = some "10.0.0.1" :=
  ⟨by simp [benchmarkSettingsFieldPaths],
   c9_env_override ["network", "coordinator_ip"]
     (by simp [benchmarkSettingsFieldPaths]) "10.0.0.1"⟩

/-! ### C5: registering an already-present identity -/

/-- Helper: Python dict assignment to the same key twice keeps only the last
value. -/
theorem dictSet_dictSet (reg : Registry) (k : String) (v v' : Worker) :
    dictSet (dictSet reg k v) k v' = dictSet reg k v' := by
  induction reg with
  | nil => simp [dictSet]
  | cons p rest ih =>
    obtain ⟨k', w'⟩ := p
    by_cases h : k' = k
    · subst h; simp [dictSet]
    · simp [dictSet, h, ih]

/-- C5 counterexample: registering a second record under an identity already
present does not keep the first record; the registry ends up holding the
second record. -/
theorem c5_counterexample :
    WorkerRegistry.register
        (WorkerRegistry.register [] { worker_id := "w1", role := .sender, id := "idA" })
        { worker_id := "w2", role := .sender, id := "idA" } ≠
      WorkerRegistry.register [] { worker_id := "w1", role := .sender, id := "idA" } := by
  decide

/-- C5 amended: registration on an existing identity is last-write-wins: the
second create-record replaces the first, and re-registering the identical
record is a no-op. -/
theorem c5_register_last_write_wins (reg : Registry) (w w' : Worker)
    (h : w.id = w'.id) :
    WorkerRegistry.register (WorkerRegistry.register reg w) w'
        = WorkerRegistry.register reg w' ∧
    WorkerRegistry.register (WorkerRegistry.register reg w) w
        = WorkerRegistry.register reg w := by
  constructor
  · unfold WorkerRegistry.register
    rw [h]
    exact dictSet_dictSet reg w'.id w w'
  · exact dictSet_dictSet reg w.id w w

/-- Witness for c5_register_last_write_wins at two concrete records sharing
an identity. -/
theorem c5_register_last_write_wins_witness :
    (Worker.id { worker_id := "w1", role := .sender, id := "idA" })
        = (Worker.id { worker_id := "w2", role := .sender, id := "idA" }) ∧
    WorkerRegistry.register
        (WorkerRegistry.register [] { worker_id := "w1", role := .sender, id := "idA" })
        { worker_id := "w2", role := .sender, id := "idA" }
      = WorkerRegistry.register [] { worker_id := "w2", role := .sender, id := "idA" } :=
  ⟨rfl,
   (c5_register_last_write_wins [] { worker_id := "w1", role := .sender, id := "idA" }
     { worker_id := "w2", role := .sender, id := "idA" } rfl).1⟩

/-! ### C2: worker reported-state trace vs transition_allowed -/

/-- C2 counterexample: already for a single test, the worker's reported
trace contains the adjacent pair (READY_TO_TEST, FINISHED_TEST), which
WorkerState.transition_allowed rejects: the worker never reports the
intermediate RUNNING_TEST state. -/
theorem c2_counterexample :
    ¬ (∀ p ∈ adjacentPairs (worker_trace 1),
        WorkerState.transition_allowed p.1 p.2 = true) := by
  decide

/-- Helper for C2: every adjacent pair of the reported tail (starting from
either CONNECTED_TO_SYNC or FINISHED_TEST) is an allowed edge, except
READY_TO_TEST to FINISHED_TEST which factors through the never-reported
RUNNING_TEST state. -/
theorem c2_reported_aux (n : Nat) (s : WorkerState)
    (hs : s = WorkerState.CONNECTED_TO_SYNC ∨ s = WorkerState.FINISHED_TEST) :
    ∀ p ∈ adjacentPairs (s :: worker_reported_states n),
      WorkerState.transition_allowed p.1 p.2 = true ∨
        (p.1 = WorkerState.READY_TO_TEST ∧ p.2 = WorkerState.FINISHED_TEST ∧
          WorkerState.transition_allowed p.1 WorkerState.RUNNING_TEST = true ∧
          WorkerState.transition_allowed WorkerState.RUNNING_TEST p.2 = true) := by
  induction n generalizing s with
  | zero =>
    intro p hp
    simp [worker_reported_states, adjacentPairs] at hp
  | succ n ih =>
    intro p hp
    rw [worker_reported_states] at hp
    simp only [worker_test_states, List.cons_append, List.nil_append,
      adjacentPairs, List.mem_cons] at hp
    rcases hp with h | h | h | h
    · rcases hs with hs | hs <;> subst hs <;> subst h <;> left <;> decide
    · subst h; left; decide
    · subst h
      right
      exact ⟨rfl, rfl, by decide, by decide⟩
    · exact ih WorkerState.FINISHED_TEST (Or.inr rfl) p h

/-- C2 amended: every adjacent pair of states in a worker's reported trace
is an edge of the section 4.4 state machine as codified by
WorkerState.transition_allowed, except the pair (READY_TO_TEST,
FINISHED_TEST): the worker never reports RUNNING_TEST, and that pair is
exactly the composition of the two allowed edges through RUNNING_TEST. -/
theorem c2_trace_edges (n : Nat) (p : WorkerState × WorkerState)
    (hp : p ∈ adjacentPairs (worker_trace n)) :
    WorkerState.transition_allowed p.1 p.2 = true ∨
      (p.1 = WorkerState.READY_TO_TEST ∧ p.2 = WorkerState.FINISHED_TEST ∧
        WorkerState.transition_allowed p.1 WorkerState.RUNNING_TEST = true ∧
        WorkerState.transition_allowed WorkerState.RUNNING_TEST p.2 = true) := by
  rw [worker_trace, adjacentPairs, List.mem_cons] at hp
  rcases hp with h | h
  · subst h; left; decide
  · exact c2_reported_aux n WorkerState.CONNECTED_TO_SYNC (Or.inl rfl) p h

/-- Witness for c2_trace_edges at the first adjacent pair of a one-test
trace. -/
theorem c2_trace_edges_witness :
    ((WorkerState.CONNECTING_TO_COORDINATOR, WorkerState.CONNECTED_TO_SYNC)
        ∈ adjacentPairs (worker_trace 1)) ∧
    (WorkerState.transition_allowed WorkerState.CONNECTING_TO_COORDINATOR
        WorkerState.CONNECTED_TO_SYNC = true ∨
      (WorkerState.CONNECTING_TO_COORDINATOR = WorkerState.READY_TO_TEST ∧
        WorkerState.CONNECTED_TO_SYNC = WorkerState.FINISHED_TEST ∧
        WorkerState.transition_allowed WorkerState.CONNECTING_TO_COORDINATOR
          WorkerState.RUNNING_TEST = true ∧
        WorkerState.transition_allowed WorkerState.RUNNING_TEST
          WorkerState.CONNECTED_TO_SYNC = true)) :=
  ⟨by decide,
   c2_trace_edges 1 (WorkerState.CONNECTING_TO_COORDINATOR, WorkerState.CONNECTED_TO_SYNC)
     (by decide)⟩

/-! ### C1: STOP_END_LOOP is never broadcast -/

/-- Helper for C1: the END-draining loop runs forever on any broadcast
stream that never carries the STOP_END_LOOP topic. -/
theorem end_drain_loop_no_stop (l : List CoordinationSignal)
    (h : CoordinationSignal.STOP_END_LOOP ∉ l) :
    end_drain_loop_terminates l = false := by
  induction l with
  | nil => rfl
  | cons s rest ih =>
    rw [end_drain_loop_terminates]
    rw [List.mem_cons, not_or] at h
    rw [if_neg (fun hs => h.1 hs.symm)]
    exact ih h.2

/-- C1: the coordinator's PUB-channel topic sequence for any test matrix is
CONFIG, START per test followed by one FINISH; it never contains
STOP_END_LOOP, so the sender's END-draining loop — which terminates exactly
on a STOP_END_LOOP broadcast — never terminates on any suffix of the
coordinator's broadcast stream. -/
theorem c1_stop_end_loop_never_broadcast (test_matrix : List TestConfigCreate)
    (tail : List CoordinationSignal)
    (h : tail <:+ coordinator_broadcast_topics test_matrix) :
    CoordinationSignal.STOP_END_LOOP ∉ coordinator_broadcast_topics test_matrix ∧
    end_drain_loop_terminates tail = false ∧
    (∀ sigs : List CoordinationSignal,
      end_drain_loop_terminates (sigs ++ [CoordinationSignal.STOP_END_LOOP]) = true) := by
  have hmem : CoordinationSignal.STOP_END_LOOP ∉ coordinator_broadcast_topics test_matrix := by
    intro hm
    rw [coordinator_broadcast_topics] at hm
    rcases List.mem_append.mp hm with hm | hm
    · rcases List.mem_flatMap.mp hm with ⟨_, _, hm⟩
      rw [coordinator_test_broadcast_topics] at hm
      simp at hm
    · simp at hm
  refine ⟨hmem, ?_, ?_⟩
  · exact end_drain_loop_no_stop tail
      (fun hx => hmem (h.subset hx))
  · intro sigs
    induction sigs with
    | nil => rfl
    | cons s rest ih =>
      rw [List.cons_append, end_drain_loop_terminates]
      by_cases hs : s = CoordinationSignal.STOP_END_LOOP
      · rw [if_pos hs]
      · rw [if_neg hs]; exact ih

/-- Witness for c1_stop_end_loop_never_broadcast at a one-test matrix and
the full broadcast stream. -/
theorem c1_stop_end_loop_never_broadcast_witness :
    (coordinator_broadcast_topics [⟨100, 64, false, false, 100, 100, .NONE⟩]
        <:+ coordinator_broadcast_topics [⟨100, 64, false, false, 100, 100, .NONE⟩]) ∧
    end_drain_loop_terminates
        (coordinator_broadcast_topics [⟨100, 64, false, false, 100, 100, .NONE⟩]) = false :=
  ⟨List.suffix_refl _,
   (c1_stop_end_loop_never_broadcast [⟨100, 64, false, false, 100, 100, .NONE⟩]
      (coordinator_broadcast_topics [⟨100, 64, false, false, 100, 100, .NONE⟩])
      (List.suffix_refl _)).2.1⟩

/-! ### C4: strictness of control-plane parsing -/

/-- C4 counterexample: a registration payload carrying a field name not
declared in the WorkerCreate schema is accepted, not rejected — pydantic's
default config silently ignores unknown fields. -/
theorem c4_counterexample :
    WorkerCreate.model_validate
        [("worker_id", .jstr "w0"), ("role", .jstr "sender"), ("unexpected", .jint 1)]
      = some { worker_id := "w0", role := .sender } := by
  rfl

/-- Helper for C4: a field under a different key does not change what
lookupField finds. -/
theorem lookupField_cons_ne (o : JsonObject) (k key : String) (v : JsonValue)
    (h : k ≠ key) : lookupField ((k, v) :: o) key = lookupField o key := by
  rw [lookupField, if_neg h]

/-- C4 amended: parsing of control-plane payloads enforces required fields —
a WorkerCreate without worker_id or role, or a WorkerUpdate without state,
is rejected — but it is not strict about unknown fields: a payload field
whose name is not declared in the schema is silently ignored rather than
rejected. -/
theorem c4_required_fields_enforced_unknown_ignored (o : JsonObject)
    (k : String) (v : JsonValue)
    (hk1 : k ≠ "worker_id") (hk2 : k ≠ "role") (hk3 : k ≠ "state")
    (hk4 : k ≠ "test_number") (hk5 : k ≠ "result") :
    (WorkerCreate.model_validate ((k, v) :: o) = WorkerCreate.model_validate o) ∧
    (WorkerUpdate.model_validate ((k, v) :: o) = WorkerUpdate.model_validate o) ∧
    (lookupField o "worker_id" = none → WorkerCreate.model_validate o = none) ∧
    (lookupField o "role" = none → WorkerCreate.model_validate o = none) ∧
    (lookupField o "state" = none → WorkerUpdate.model_validate o = none) := by
  refine ⟨?_, ?_, ?_, ?_, ?_⟩
  · rw [WorkerCreate.model_validate, WorkerCreate.model_validate,
      getStr, getStr, getStr, getStr,
      lookupField_cons_ne o k "worker_id" v hk1,
      lookupField_cons_ne o k "role" v hk2]
  · rw [WorkerUpdate.model_validate, WorkerUpdate.model_validate,
      getStr, getStr, getOptInt, getOptInt,
      lookupField_cons_ne o k "state" v hk3,
      lookupField_cons_ne o k "test_number" v hk4,
      lookupField_cons_ne o k "result" v hk5]
  · intro h
    rw [WorkerCreate.model_validate, getStr, h]
    rfl
  · intro h
    rw [WorkerCreate.model_validate, getStr]
    cases hw : lookupField o "worker_id" with
    | none => rfl
    | some jv =>
      cases jv <;> simp [Option.bind, getStr, h]
  · intro h
    rw [WorkerUpdate.model_validate, getStr, h]
    rfl

/-- Witness for c4_required_fields_enforced_unknown_ignored at a concrete
unknown field over a valid registration payload. -/
theorem c4_required_fields_witness :
    ("unexpected" ≠ "worker_id" ∧ "unexpected" ≠ "role" ∧ "unexpected" ≠ "state" ∧
      "unexpected" ≠ "test_number" ∧ "unexpected" ≠ "result") ∧
    WorkerCreate.model_validate
        (("unexpected", .jint 1) :: [("worker_id", .jstr "w0"), ("role", .jstr "sender")])
      = WorkerCreate.model_validate [("worker_id", .jstr "w0"), ("role", .jstr "sender")] :=
  ⟨⟨by decide, by decide, by decide, by decide, by decide⟩,
   (c4_required_fields_enforced_unknown_ignored
      [("worker_id", .jstr "w0"), ("role", .jstr "sender")]
      "unexpected" (.jint 1)
      (by decide) (by decide) (by decide) (by decide) (by decide)).1⟩

/-! ### C3: port allocation -/

/-- Helper for C3: closed form of a run of allocate_ports calls for g groups
of k receivers each, from an arbitrary starting offset. -/
theorem allocate_run_replicate (g k : Nat) (sb : Bool) :
    ∀ off, allocate_run off (List.replicate g k) sb =
      (List.range g).map (fun i =>
        if sb then (off + i, List.replicate k (off + i))
        else (off + k * i, (List.range k).map (fun j => off + k * i + j))) := by
  induction g with
  | zero => intro off; simp [allocate_run]
  | succ g ih =>
    intro off
    rw [List.replicate_succ, allocate_run, ih, List.range_succ_eq_map,
      List.map_cons, List.map_map]
    cases sb with
    | false =>
      simp only [allocate_ports, Bool.false_eq_true, if_false]
      congr 1
      simp
      intro a _
      exact ⟨by ring, fun b _ => by ring⟩
    | true =>
      simp only [allocate_ports, if_true]
      congr 1
      simp
      intro a _
      exact ⟨by omega, Or.inr (by omega)⟩

/-- Helper for C3: two distinct contiguous blocks of k ports never share a
port. -/
theorem contiguous_blocks_disjoint (k a b j1 j2 : Nat) (hab : a ≠ b)
    (h1 : j1 < k) (h2 : j2 < k) (heq : k * a + j1 = k * b + j2) : False := by
  rcases Nat.lt_or_ge a b with h | h
  · have hle : k * (a + 1) ≤ k * b := Nat.mul_le_mul_left k h
    rw [Nat.mul_succ] at hle
    omega
  · have hba : b < a := lt_of_le_of_ne h (Ne.symm hab)
    have hle : k * (b + 1) ≤ k * a := Nat.mul_le_mul_left k hba
    rw [Nat.mul_succ] at hle
    omega

/-- C3: over a run of group allocations with k receivers each the allocator
offset starts at zero and advances monotonically — group i receives
(i, [i]*k) under sender-bind and (k*i, [k*i, …, k*i+k-1]) otherwise — so
every group gets exactly k receiver ports, all equal to the sender port
under sender-bind and pairwise distinct and contiguous otherwise, and the
receiver-port sets of distinct groups never overlap. -/
theorem c3_port_allocation (g k : Nat) (sb : Bool) :
    (allocate_run 0 (List.replicate g k) sb).length = g ∧
    (∀ i, i < g → (allocate_run 0 (List.replicate g k) sb)[i]? =
      some (if sb then (i, List.replicate k i)
            else (k * i, (List.range k).map (fun j => k * i + j)))) ∧
    (∀ a ∈ allocate_run 0 (List.replicate g k) sb, a.2.length = k) ∧
    (sb = true → ∀ a ∈ allocate_run 0 (List.replicate g k) sb, ∀ p ∈ a.2, p = a.1) ∧
    (sb = false → ∀ a ∈ allocate_run 0 (List.replicate g k) sb,
      a.2.Nodup ∧ a.2 = (List.range k).map (fun j => a.1 + j)) ∧
    (∀ (i j : Nat) (ai aj : Nat × List Nat), i ≠ j →
      (allocate_run 0 (List.replicate g k) sb)[i]? = some ai →
      (allocate_run 0 (List.replicate g k) sb)[j]? = some aj →
      ∀ p ∈ ai.2, p ∉ aj.2) := by
  have hrun := allocate_run_replicate g k sb 0
  simp only [Nat.zero_add] at hrun
  have hget : ∀ i, i < g → (allocate_run 0 (List.replicate g k) sb)[i]? =
      some (if sb then (i, List.replicate k i)
            else (k * i, (List.range k).map (fun j => k * i + j))) := by
    intro i hi
    rw [hrun, List.getElem?_map, List.getElem?_range hi]
    rfl
  refine ⟨by rw [hrun]; simp, hget, ?_, ?_, ?_, ?_⟩
  · intro a ha
    rw [hrun, List.mem_map] at ha
    obtain ⟨i, _, rfl⟩ := ha
    cases sb <;> simp
  · intro hsb a ha p hp
    subst hsb
    rw [hrun, List.mem_map] at ha
    obtain ⟨i, _, rfl⟩ := ha
    simp only [if_true] at hp ⊢
    exact List.eq_of_mem_replicate hp
  · intro hsb a ha
    subst hsb
    rw [hrun, List.mem_map] at ha
    obtain ⟨i, _, rfl⟩ := ha
    simp only [Bool.false_eq_true, if_false]
    exact ⟨List.Nodup.map (fun x y hxy => by omega) (List.nodup_range k), trivial⟩
  · intro i j ai aj hij hi hj p hpi hpj
    have hilt : i < g := by
      by_contra hge
      rw [hrun, List.getElem?_eq_none (by simp; omega)] at hi
      cases hi
    have hjlt : j < g := by
      by_contra hge
      rw [hrun, List.getElem?_eq_none (by simp; omega)] at hj
      cases hj
    rw [hget i hilt] at hi
    rw [hget j hjlt] at hj
    cases hai : sb with
    | true =>
      subst hai
      simp only [if_true, Option.some_inj] at hi hj
      subst hi; subst hj
      have h1 := List.eq_of_mem_replicate hpi
      have h2 := List.eq_of_mem_replicate hpj
      omega
    | false =>
      subst hai
      simp only [Bool.false_eq_true, if_false, Option.some_inj] at hi hj
      subst hi; subst hj
      simp only [List.mem_map, List.mem_range] at hpi hpj
      obtain ⟨j1, hj1, hpe1⟩ := hpi
      obtain ⟨j2, hj2, hpe2⟩ := hpj
      exact contiguous_blocks_disjoint k i j j1 j2 hij hj1 hj2 (by omega)

/-- Witness for c3_port_allocation at two groups of three receivers under
receiver-bind. -/
theorem c3_port_allocation_witness :
    ((0:Nat) < 2) ∧
    (allocate_run 0 (List.replicate 2 3) false)[0]? =
      some (3 * 0, (List.range 3).map (fun j => 3 * 0 + j)) := by
  refine ⟨by decide, ?_⟩
  have h := (c3_port_allocation 2 3 false).2.1 0 (by decide)
  simpa using h

/-! ### C10: per-test result buckets -/

/-- Helper for C10: processing updates with a live bucket appends exactly
the results the processed updates carry, in order. -/
theorem process_updates_bucket (us : List (String × WorkerUpdate)) :
    ∀ reg acc out, process_updates reg (some acc) us = some out →
      out.2 = some (acc ++ (us.map Prod.snd).filterMap WorkerUpdate.result) := by
  induction us with
  | nil =>
    intro reg acc out h
    rw [process_updates] at h
    cases h
    simp
  | cons fr rest ih =>
    intro reg acc out h
    obtain ⟨fid, fu⟩ := fr
    cases hw : dictGet reg fid with
    | none => simp [process_updates, update_worker_bucket, hw] at h
    | some w =>
      cases hr : fu.result with
      | none =>
        simp only [process_updates, update_worker_bucket, hw, hr] at h
        have hb := ih _ _ _ h
        rw [hb]
        simp [hr]
      | some r =>
        simp only [process_updates, update_worker_bucket, hw, hr] at h
        have hb := ih _ _ _ h
        rw [hb]
        simp [hr]

/-- Helper for C10: processing updates with no bucket leaves the bucket
absent whatever results the updates carry. -/
theorem process_updates_no_bucket (us : List (String × WorkerUpdate)) :
    ∀ reg out, process_updates reg none us = some out → out.2 = none := by
  induction us with
  | nil =>
    intro reg out h
    rw [process_updates] at h
    cases h
    rfl
  | cons fr rest ih =>
    intro reg out h
    obtain ⟨fid, fu⟩ := fr
    cases hw : dictGet reg fid with
    | none => simp [process_updates, update_worker_bucket, hw] at h
    | some w =>
      cases hr : fu.result with
      | none =>
        simp only [process_updates, update_worker_bucket, hw, hr] at h
        exact ih _ _ h
      | some r =>
        simp only [process_updates, update_worker_bucket, hw, hr] at h
        exact ih _ _ h

/-- C10: the rows saved for a test are exactly the results carried by the
updates processed during that test's FINISHED_TEST wait, in order — results
carried by updates of the RECEIVED_CONFIG and READY_TO_TEST waits are
silently discarded (those waits run without a bucket) and the previous
test's bucket contents never leak (the bucket is cleared before the
FINISHED_TEST wait). -/
theorem c10_saved_rows (reg : Registry) (prev : List TestResult)
    (u1 u2 u3 : List (String × WorkerUpdate)) (out : Registry × List TestResult)
    (h : run_test_waits reg prev u1 u2 u3 = some out) :
    out.2 = (u3.map Prod.snd).filterMap WorkerUpdate.result := by
  cases h1 : process_updates reg none u1 with
  | none => simp [run_test_waits, h1] at h
  | some p1 =>
    obtain ⟨reg1, b1⟩ := p1
    cases h2 : process_updates reg1 none u2 with
    | none => simp [run_test_waits, h1, h2] at h
    | some p2 =>
      obtain ⟨reg2, b2⟩ := p2
      cases h3 : process_updates reg2 (some []) u3 with
      | none => simp [run_test_waits, h1, h2, h3] at h
      | some p3 =>
        obtain ⟨reg3, bucket⟩ := p3
        simp only [run_test_waits, h1, h2, List.take_zero, h3,
          Option.some.injEq] at h
        subst h
        have hb := process_updates_bucket u3 reg2 [] (reg3, bucket) h3
        simp only [List.nil_append] at hb
        simp [hb]

/-- Witness for c10_saved_rows at a registry of one known worker and a
single FINISHED_TEST update carrying one result. -/
theorem c10_saved_rows_witness :
    run_test_waits [("a", { worker_id := "wA", role := .receiver, id := "a" })] []
        [] []
        [("a", { state := .FINISHED_TEST, test_number := some 0,
                 result := some { worker_id := "wA", role := .receiver,
                                  config := ⟨100, 64, false, false, 100, 100, .NONE, 0⟩,
                                  messages_received := some 100,
                                  throughput_mbps := 512, start_time := 1, end_time := 2 } })]
      = some ([("a", { worker_id := "wA", role := .receiver, id := "a",
                       state := .FINISHED_TEST, test_number := some 0 })],
              [{ worker_id := "wA", role := .receiver,
                 config := ⟨100, 64, false, false, 100, 100, .NONE, 0⟩,
                 messages_received := some 100,
                 throughput_mbps := 512, start_time := 1, end_time := 2 }]) ∧
    ([("a", ({ state := .FINISHED_TEST, test_number := some 0,
               result := some { worker_id := "wA", role := .receiver,
                                config := ⟨100, 64, false, false, 100, 100, .NONE, 0⟩,
                                messages_received := some 100,
                                throughput_mbps := 512, start_time := 1, end_time := 2 } }
              : WorkerUpdate))].map Prod.snd).filterMap WorkerUpdate.result
      = [{ worker_id := "wA", role := .receiver,
           config := ⟨100, 64, false, false, 100, 100, .NONE, 0⟩,
           messages_received := some 100,
           throughput_mbps := 512, start_time := 1, end_time := 2 }] := by
  constructor
  · rfl
  · have h := c10_saved_rows
      [("a", { worker_id := "wA", role := .receiver, id := "a" })] [] [] []
      [("a", { state := .FINISHED_TEST, test_number := some 0,
               result := some { worker_id := "wA", role := .receiver,
                                config := ⟨100, 64, false, false, 100, 100, .NONE, 0⟩,
                                messages_received := some 100,
                                throughput_mbps := 512, start_time := 1, end_time := 2 } })]
      ([("a", { worker_id := "wA", role := .receiver, id := "a",
                state := .FINISHED_TEST, test_number := some 0 })],
       [{ worker_id := "wA", role := .receiver,
          config := ⟨100, 64, false, false, 100, 100, .NONE, 0⟩,
          messages_received := some 100,
          throughput_mbps := 512, start_time := 1, end_time := 2 }])
      (by rfl)
    exact h.symm

/-! ### C6: the assembly loop exit condition -/

/-- Helper: a successful dict lookup yields a member entry. -/
theorem dictGet_mem (reg : Registry) (k : String) (w : Worker)
    (h : dictGet reg k = some w) : (k, w) ∈ reg := by
  induction reg with
  | nil => cases h
  | cons p rest ih =>
    obtain ⟨k', w'⟩ := p
    rw [dictGet] at h
    by_cases hk : k' = k
    · rw [if_pos hk] at h
      injection h with h
      subst h; subst hk
      exact List.mem_cons_self _ _
    · rw [if_neg hk] at h
      exact List.mem_cons_of_mem _ (ih h)

/-- Helper: a failed dict lookup means the key is absent. -/
theorem dictGet_none_not_mem (reg : Registry) (k : String)
    (h : dictGet reg k = none) : k ∉ reg.map Prod.fst := by
  induction reg with
  | nil => simp
  | cons p rest ih =>
    obtain ⟨k', w'⟩ := p
    rw [dictGet] at h
    by_cases hk : k' = k
    · rw [if_pos hk] at h; cases h
    · rw [if_neg hk] at h
      simp only [List.map_cons, List.mem_cons]
      rintro (h1 | h1)
      · exact hk h1.symm
      · exact ih h h1

/-- Helper: dict assignment under a fresh key appends the entry. -/
theorem dictSet_of_not_mem (reg : Registry) (k : String) (v : Worker)
    (h : dictGet reg k = none) : dictSet reg k v = reg ++ [(k, v)] := by
  induction reg with
  | nil => rfl
  | cons p rest ih =>
    obtain ⟨k', w'⟩ := p
    rw [dictGet] at h
    by_cases hk : k' = k
    · rw [if_pos hk] at h; cases h
    · rw [if_neg hk] at h
      rw [dictSet, if_neg hk, ih h, List.cons_append]

/-- Helper: entries of a dict after assignment are the new entry or old
entries. -/
theorem dictSet_mem (reg : Registry) (k : String) (v : Worker)
    (p : String × Worker) (hp : p ∈ dictSet reg k v) : p = (k, v) ∨ p ∈ reg := by
  induction reg with
  | nil => simpa [dictSet] using hp
  | cons q rest ih =>
    obtain ⟨k', w'⟩ := q
    rw [dictSet] at hp
    by_cases hk : k' = k
    · rw [if_pos hk] at hp
      rcases List.mem_cons.mp hp with h | h
      · exact Or.inl h
      · exact Or.inr (List.mem_cons_of_mem _ h)
    · rw [if_neg hk] at hp
      rcases List.mem_cons.mp hp with h | h
      · exact Or.inr (by rw [h]; exact List.mem_cons_self _ _)
      · rcases ih h with h1 | h1
        · exact Or.inl h1
        · exact Or.inr (List.mem_cons_of_mem _ h1)

/-- Helper: assignment to an existing key keeps the key column unchanged. -/
theorem dictSet_keys_of_mem (reg : Registry) (k : String) (w v : Worker)
    (h : dictGet reg k = some w) :
    (dictSet reg k v).map Prod.fst = reg.map Prod.fst := by
  induction reg with
  | nil => cases h
  | cons q rest ih =>
    obtain ⟨k', w'⟩ := q
    rw [dictGet] at h
    rw [dictSet]
    by_cases hk : k' = k
    · rw [if_pos hk]
      simp [hk]
    · rw [if_neg hk] at h ⊢
      simp [ih h]

/-- Helper: replacing a value by one with the same image under f keeps the
f-column of the dict unchanged. -/
theorem dictSet_map_snd {β : Type} (f : Worker → β) (reg : Registry)
    (k : String) (w v : Worker) (h : dictGet reg k = some w) (hf : f v = f w) :
    (dictSet reg k v).map (fun p => f p.2) = reg.map (fun p => f p.2) := by
  induction reg with
  | nil => cases h
  | cons q rest ih =>
    obtain ⟨k', w'⟩ := q
    rw [dictGet] at h
    rw [dictSet]
    by_cases hk : k' = k
    · rw [if_pos hk] at *
      injection h with h
      subst h
      simp [hf]
    · rw [if_neg hk] at h ⊢
      simp [ih h]

/-- Helper: replacing a value by one agreeing on a predicate keeps the
predicate count unchanged. -/
theorem dictSet_countP (pred : Worker → Bool) (reg : Registry)
    (k : String) (w v : Worker) (h : dictGet reg k = some w)
    (hf : pred v = pred w) :
    (dictSet reg k v).countP (fun p => pred p.2)
      = reg.countP (fun p => pred p.2) := by
  induction reg with
  | nil => cases h
  | cons q rest ih =>
    obtain ⟨k', w'⟩ := q
    rw [dictGet] at h
    rw [dictSet]
    by_cases hk : k' = k
    · rw [if_pos hk] at *
      injection h with h
      subst h
      simp [List.countP_cons, hf]
    · rw [if_neg hk] at h ⊢
      simp [List.countP_cons, ih h]

/-- Helper: with unique keys, the key determines the entry. -/
theorem key_unique (reg : Registry) (hnodup : (reg.map Prod.fst).Nodup)
    (p q : String × Worker) (hp : p ∈ reg) (hq : q ∈ reg) (hk : p.1 = q.1) :
    p = q := by
  induction reg with
  | nil => cases hp
  | cons a rest ih =>
    simp only [List.map_cons, List.nodup_cons] at hnodup
    rcases List.mem_cons.mp hp with h1 | h1 <;> rcases List.mem_cons.mp hq with h2 | h2
    · rw [h1, h2]
    · exfalso
      apply hnodup.1
      subst h1
      rw [hk]
      exact List.mem_map_of_mem Prod.fst h2
    · exfalso
      apply hnodup.1
      subst h2
      rw [← hk]
      exact List.mem_map_of_mem Prod.fst h1
    · exact ih hnodup.2 h1 h2

/-- Helper: a group assignment keeps the key column unchanged. -/
theorem assign_group_keys (reg : Registry) (ids : List String) (gid : Nat) :
    (assign_group reg ids gid).map Prod.fst = reg.map Prod.fst := by
  rw [assign_group, List.map_map]
  apply List.map_congr_left
  intro p _
  by_cases h : p.1 ∈ ids
  · simp [h]
  · simp [h]

/-- Helper: entries after a group assignment are old entries, possibly with
the fresh group id written. -/
theorem assign_group_mem (reg : Registry) (ids : List String) (gid : Nat)
    (p : String × Worker) (hp : p ∈ assign_group reg ids gid) :
    ∃ q ∈ reg, p = q ∨ p = (q.1, { q.2 with group_id := some gid }) := by
  rw [assign_group, List.mem_map] at hp
  obtain ⟨q, hq, rfl⟩ := hp
  refine ⟨q, hq, ?_⟩
  by_cases h : q.1 ∈ ids
  · simp [h]
  · simp [h]

/-- Helper: a group assignment matching no key is the identity. -/
theorem assign_group_no_match (reg : Registry) (ids : List String) (gid : Nat)
    (h : ∀ p ∈ reg, p.1 ∉ ids) : assign_group reg ids gid = reg := by
  induction reg with
  | nil => rfl
  | cons p rest ih =>
    rw [assign_group, List.map_cons, if_neg (h p (List.mem_cons_self _ _))]
    have htail := ih (fun q hq => h q (List.mem_cons_of_mem _ hq))
    rw [assign_group] at htail
    rw [htail]

/-- Helper: one unfolding step of a group assignment. -/
theorem assign_group_cons (p : String × Worker) (rest : Registry)
    (ids : List String) (gid : Nat) :
    assign_group (p :: rest) ids gid
      = (if p.1 ∈ ids then (p.1, { p.2 with group_id := some gid }) else p)
          :: assign_group rest ids gid := by
  rw [assign_group, assign_group, List.map_cons]

/-- Helper: num_groups through the group-id column. -/
theorem num_groups_eq_gidList (reg : Registry) :
    num_groups reg = ((gidList reg).filterMap id).toFinset.card := by
  rw [num_groups, gidList, List.filterMap_map, List.filterMap_map]
  rfl

/-- Helper: one unfolding step of the group-id column of a group
assignment. -/
theorem gidList_assign_cons (p : String × Worker) (rest : Registry)
    (ids : List String) (gid : Nat) :
    gidList (assign_group (p :: rest) ids gid)
      = (if p.1 ∈ ids then some gid else p.2.group_id)
          :: gidList (assign_group rest ids gid) := by
  rw [assign_group_cons, gidList, gidList, List.map_cons]
  by_cases h : p.1 ∈ ids <;> simp [h]

/-- Helper: assigning a group id to matched, previously ungrouped entries
adds exactly that id to the set of assigned group ids. -/
theorem assign_group_gids_toFinset (reg : Registry) (ids : List String) (gid : Nat)
    (hnone : ∀ p ∈ reg, p.1 ∈ ids → p.2.group_id = none)
    (hex : ∃ p ∈ reg, p.1 ∈ ids) :
    ((gidList (assign_group reg ids gid)).filterMap id).toFinset
      = insert gid ((gidList reg).filterMap id).toFinset := by
  induction reg with
  | nil =>
    obtain ⟨p, hp, _⟩ := hex
    cases hp
  | cons p rest ih =>
    by_cases hm : p.1 ∈ ids
    · have hpnone := hnone p (List.mem_cons_self _ _) hm
      rw [gidList_assign_cons, if_pos hm]
      rw [show gidList (p :: rest) = p.2.group_id :: gidList rest from rfl, hpnone]
      simp only [List.filterMap_cons, id]
      by_cases hex2 : ∃ q ∈ rest, q.1 ∈ ids
      · rw [List.toFinset_cons,
          ih (fun q hq hqi => hnone q (List.mem_cons_of_mem _ hq) hqi) hex2]
        rw [Finset.insert_idem]
      · have hrest : assign_group rest ids gid = rest := by
          apply assign_group_no_match
          intro q hq hqi
          exact hex2 ⟨q, hq, hqi⟩
        rw [hrest, List.toFinset_cons]
    · rw [gidList_assign_cons, if_neg hm]
      rw [show gidList (p :: rest) = p.2.group_id :: gidList rest from rfl]
      have hex2 : ∃ q ∈ rest, q.1 ∈ ids := by
        obtain ⟨q, hq, hqi⟩ := hex
        rcases List.mem_cons.mp hq with h | h
        · exact absurd (h ▸ hqi) hm
        · exact ⟨q, h, hqi⟩
      have ihr := ih (fun q hq hqi => hnone q (List.mem_cons_of_mem _ hq) hqi) hex2
      cases hg : p.2.group_id with
      | none =>
        simp only [List.filterMap_cons, id]
        exact ihr
      | some g =>
        simp only [List.filterMap_cons, id]
        rw [List.toFinset_cons, List.toFinset_cons, ihr, Finset.Insert.comm]

/-- Helper: assigning a group id to matched, previously ungrouped entries
raises the grouped-sender count by the number of matched sender entries. -/
theorem assign_group_grouped (reg : Registry) (ids : List String) (gid : Nat)
    (hnone : ∀ p ∈ reg, p.1 ∈ ids → p.2.group_id = none) :
    grouped_sender_count (assign_group reg ids gid)
      = grouped_sender_count reg
        + reg.countP (fun p => decide (p.1 ∈ ids ∧ p.2.role = Role.sender)) := by
  induction reg with
  | nil => rfl
  | cons p rest ih =>
    have ihr := ih (fun q hq hqi => hnone q (List.mem_cons_of_mem _ hq) hqi)
    simp only [grouped_sender_count] at ihr ⊢
    rw [assign_group_cons]
    by_cases hm : p.1 ∈ ids
    · have hpnone := hnone p (List.mem_cons_self _ _) hm
      rw [if_pos hm, List.countP_cons, List.countP_cons, List.countP_cons, ihr]
      simp only [hpnone, hm]
      cases hrole : p.2.role <;> simp [hrole] <;> omega
    · rw [if_neg hm, List.countP_cons, List.countP_cons, List.countP_cons, ihr]
      simp only [hm]
      simp
      omega

/-- Helper: with unique keys, exactly one registry entry is a sender keyed
by the distinguished sender identity, provided all other matched keys name
receivers. -/
theorem countP_sender_entry (reg : Registry) (hnodup : (reg.map Prod.fst).Nodup)
    (s : Worker) (hs : (s.id, s) ∈ reg) (hrole : s.role = Role.sender)
    (rids : List String)
    (hr : ∀ q ∈ reg, q.1 ∈ rids → q.2.role = Role.receiver) :
    reg.countP (fun p => decide (p.1 ∈ s.id :: rids ∧ p.2.role = Role.sender)) = 1 := by
  induction reg with
  | nil => cases hs
  | cons q rest ih =>
    simp only [List.map_cons, List.nodup_cons] at hnodup
    rcases List.mem_cons.mp hs with h1 | h1
    · rw [List.countP_cons]
      have hzero : rest.countP
          (fun p => decide (p.1 ∈ s.id :: rids ∧ p.2.role = Role.sender)) = 0 := by
        rw [List.countP_eq_zero]
        intro p hp
        simp only [decide_eq_true_eq, List.mem_cons, not_and]
        rintro (hk | hk)
        · exfalso
          apply hnodup.1
          have hmem : p.1 ∈ rest.map Prod.fst := List.mem_map_of_mem Prod.fst hp
          rw [hk] at hmem
          rw [← h1]
          exact hmem
        · intro hsend
          have := hr p (List.mem_cons_of_mem _ hp) hk
          rw [this] at hsend
          cases hsend
      rw [hzero]
      rw [← h1]
      simp [hrole]
    · have hqfalse :
          (decide (q.1 ∈ s.id :: rids ∧ q.2.role = Role.sender)) = false := by
        simp only [decide_eq_false_iff_not, List.mem_cons, not_and]
        rintro (hk | hk)
        · exfalso
          apply hnodup.1
          rw [hk]
          have : (s.id, s).1 ∈ rest.map Prod.fst := List.mem_map_of_mem Prod.fst h1
          exact this
        · intro hsend
          have := hr q (List.mem_cons_self _ _) hk
          rw [this] at hsend
          cases hsend
      rw [List.countP_cons, hqfalse]
      simp only [Bool.false_eq_true, if_false, Nat.add_zero]
      exact ih hnodup.2 h1 (fun q2 hq2 hk2 => hr q2 (List.mem_cons_of_mem _ hq2) hk2)

/-- Helper: forming a group — writing a fresh group id onto one unpaired
sender entry and the unpaired receiver entries — preserves the registry
invariant, with the group-id counter advanced past the fresh id. -/
theorem form_group_inv (st : CoordState) (sender : Worker) (receivers : List Worker)
    (o : Nat) (hinv : RegInv st)
    (hsentry : (sender.id, sender) ∈ st.registry)
    (hsrole : sender.role = Role.sender) (hsgroup : sender.group_id = none)
    (hrfacts : ∀ r ∈ receivers,
      r.role = Role.receiver ∧ r.group_id = none ∧ (r.id, r) ∈ st.registry) :
    RegInv { registry := assign_group st.registry
               (sender.id :: receivers.map Worker.id) st.next_group_id,
             next_group_id := st.next_group_id + 1, next_port_offset := o } := by
  obtain ⟨hids, hnodup, hbound, hcount⟩ := hinv
  have hnone : ∀ p ∈ st.registry,
      p.1 ∈ sender.id :: receivers.map Worker.id → p.2.group_id = none := by
    intro p hp hpids
    rcases List.mem_cons.mp hpids with hk | hk
    · have heq := key_unique st.registry hnodup p (sender.id, sender) hp hsentry hk
      rw [heq]
      exact hsgroup
    · obtain ⟨r, hrmem, hrid⟩ := List.mem_map.mp hk
      obtain ⟨_, hrg, hrentry⟩ := hrfacts r hrmem
      have heq := key_unique st.registry hnodup p (r.id, r) hp hrentry (by rw [← hrid])
      rw [heq]
      exact hrg
  have hr_recv : ∀ q ∈ st.registry, q.1 ∈ receivers.map Worker.id →
      q.2.role = Role.receiver := by
    intro q hq hk
    obtain ⟨r, hrmem, hrid⟩ := List.mem_map.mp hk
    obtain ⟨hrrole, _, hrentry⟩ := hrfacts r hrmem
    have heq := key_unique st.registry hnodup q (r.id, r) hq hrentry (by rw [← hrid])
    rw [heq]
    exact hrrole
  have hex : ∃ p ∈ st.registry, p.1 ∈ sender.id :: receivers.map Worker.id :=
    ⟨(sender.id, sender), hsentry, List.mem_cons_self _ _⟩
  have hfresh : st.next_group_id ∉ ((gidList st.registry).filterMap id).toFinset := by
    intro hmem
    rw [List.mem_toFinset] at hmem
    obtain ⟨og, hog, hog2⟩ := List.mem_filterMap.mp hmem
    rw [gidList] at hog
    obtain ⟨p, hp, hp2⟩ := List.mem_map.mp hog
    have hpg : p.2.group_id = some st.next_group_id := by
      rw [hp2]
      exact hog2
    exact Nat.lt_irrefl _ (hbound p hp _ hpg)
  refine ⟨?_, ?_, ?_, ?_⟩
  · intro p hp
    obtain ⟨q, hq, hcase⟩ := assign_group_mem _ _ _ p hp
    rcases hcase with heq | heq
    · rw [heq]
      exact hids q hq
    · rw [heq]
      exact hids q hq
  · rw [assign_group_keys]
    exact hnodup
  · intro p hp g hg
    obtain ⟨q, hq, hcase⟩ := assign_group_mem _ _ _ p hp
    rcases hcase with heq | heq
    · rw [heq] at hg
      exact Nat.lt_succ_of_lt (hbound q hq g hg)
    · rw [heq] at hg
      have hg2 : ({ q.2 with group_id := some st.next_group_id } : Worker).group_id
          = some g := hg
      have hgg : st.next_group_id = g := by injection hg2
      rw [← hgg]
      exact Nat.lt_succ_self _
  · have hone := countP_sender_entry st.registry hnodup sender hsentry hsrole
      (receivers.map Worker.id) hr_recv
    show num_groups (assign_group st.registry _ _) = grouped_sender_count _
    rw [num_groups_eq_gidList, assign_group_gids_toFinset _ _ _ hnone hex,
      Finset.card_insert_of_not_mem hfresh, ← num_groups_eq_gidList, hcount,
      assign_group_grouped _ _ _ hnone, hone]

/-- Helper: the group-formation tail of registration preserves the registry
invariant. -/
theorem try_form_group_inv (st : CoordState) (K : Nat) (sb : Bool)
    (hinv : RegInv st) : RegInv (try_form_group st K sb) := by
  cases hsend : unpaired_senders st.registry with
  | nil =>
    simp only [try_form_group, hsend]
    exact hinv
  | cons sender rest_s =>
    simp only [try_form_group, hsend]
    by_cases hlen : ((unpaired_receivers st.registry).take K).length < K
    · rw [if_pos hlen]
      exact hinv
    · rw [if_neg hlen]
      have hsmem : sender ∈ unpaired_senders st.registry := by
        rw [hsend]
        exact List.mem_cons_self _ _
      rw [unpaired_senders] at hsmem
      have hsfacts := List.mem_filter.mp hsmem
      have hsprops : sender.role = Role.sender ∧ sender.group_id = none := by
        have hs2 := hsfacts.2
        simp only [decide_eq_true_eq] at hs2
        exact hs2
      have hsentry : (sender.id, sender) ∈ st.registry := by
        obtain ⟨p, hp, hp2⟩ := List.mem_map.mp hsfacts.1
        have hpid : p.2.id = p.1 := hinv.1 p hp
        have hpeq : p = (sender.id, sender) := by
          obtain ⟨pk, pv⟩ := p
          simp only at hp2
          subst hp2
          simp only at hpid
          rw [← hpid]
        rw [← hpeq]
        exact hp
      have hrfacts : ∀ r ∈ (unpaired_receivers st.registry).take K,
          r.role = Role.receiver ∧ r.group_id = none ∧ (r.id, r) ∈ st.registry := by
        intro r hr
        have hr2 : r ∈ unpaired_receivers st.registry := List.mem_of_mem_take hr
        rw [unpaired_receivers] at hr2
        have hf := List.mem_filter.mp hr2
        have hprops : r.role = Role.receiver ∧ r.group_id = none := by
          have h2 := hf.2
          simp only [decide_eq_true_eq] at h2
          exact h2
        obtain ⟨p, hp, hp2⟩ := List.mem_map.mp hf.1
        have hpid : p.2.id = p.1 := hinv.1 p hp
        have hpeq : p = (r.id, r) := by
          obtain ⟨pk, pv⟩ := p
          simp only at hp2
          subst hp2
          simp only at hpid
          rw [← hpid]
        refine ⟨hprops.1, hprops.2, ?_⟩
        rw [← hpeq]
        exact hp
      exact form_group_inv st sender ((unpaired_receivers st.registry).take K) _
        hinv hsentry hsprops.1 hsprops.2 hrfacts

/-- Helper: handling a registration of a fresh identity preserves the
registry invariant. -/
theorem register_worker_inv (st : CoordState) (wkey : String) (c : WorkerCreate)
    (K : Nat) (sb : Bool) (hinv : RegInv st)
    (hid : dictGet st.registry wkey = none) :
    RegInv (register_worker st wkey c K sb) := by
  obtain ⟨hids, hnodup, hbound, hcount⟩ := hinv
  have hreg := dictSet_of_not_mem st.registry wkey
    { worker_id := c.worker_id, role := c.role, id := wkey } hid
  have hinv1 : RegInv { st with registry :=
      (dictSet st.registry wkey { worker_id := c.worker_id, role := c.role, id := wkey }) } := by
    refine ⟨?_, ?_, ?_, ?_⟩
    · intro p hp
      rw [hreg] at hp
      rcases List.mem_append.mp hp with h | h
      · exact hids p h
      · simp only [List.mem_singleton] at h
        subst h
        rfl
    · show (List.map Prod.fst (dictSet st.registry wkey _)).Nodup
      rw [hreg, List.map_append, List.nodup_append]
      refine ⟨hnodup, List.nodup_singleton _, ?_⟩
      intro a ha hb
      simp only [List.map_cons, List.map_nil, List.mem_singleton] at hb
      subst hb
      exact dictGet_none_not_mem _ _ hid ha
    · intro p hp gid hgid
      rw [hreg] at hp
      rcases List.mem_append.mp hp with h | h
      · exact hbound p h gid hgid
      · simp only [List.mem_singleton] at h
        subst h
        exact Option.noConfusion hgid
    · show num_groups (dictSet st.registry wkey _)
        = grouped_sender_count (dictSet st.registry wkey _)
      rw [hreg, num_groups_eq_gidList]
      have hgl : gidList (st.registry ++
          [(wkey, { worker_id := c.worker_id, role := c.role, id := wkey })])
          = gidList st.registry ++ [none] := by
        rw [gidList, gidList, List.map_append]
        rfl
      rw [hgl, List.filterMap_append]
      simp only [List.filterMap_cons, id_eq, List.filterMap_nil, List.append_nil]
      rw [← num_groups_eq_gidList, hcount]
      simp only [grouped_sender_count]
      rw [List.countP_append]
      simp
  rw [register_worker]
  by_cases hable : able_to_group
      (dictSet st.registry wkey { worker_id := c.worker_id, role := c.role, id := wkey }) K
  · rw [if_pos hable]
    exact try_form_group_inv _ K sb hinv1
  · rw [if_neg hable]
    exact hinv1

/-- Helper: handling an update of a known identity preserves the registry
invariant. -/
theorem update_worker_inv (st st' : CoordState) (wkey : String) (u : WorkerUpdate)
    (hinv : RegInv st) (h : update_worker st wkey u = some st') : RegInv st' := by
  obtain ⟨hids, hnodup, hbound, hcount⟩ := hinv
  rw [update_worker] at h
  cases hw : dictGet st.registry wkey with
  | none =>
    rw [hw] at h
    cases h
  | some w =>
    rw [hw] at h
    injection h with h
    subst h
    have hwmem := dictGet_mem st.registry wkey w hw
    have hwid : w.id = wkey := hids (wkey, w) hwmem
    refine ⟨?_, ?_, ?_, ?_⟩
    · intro p hp
      rcases dictSet_mem _ _ _ _ hp with h1 | h1
      · rw [h1]
        exact hwid
      · exact hids p h1
    · show (List.map Prod.fst (dictSet st.registry wkey _)).Nodup
      rw [dictSet_keys_of_mem st.registry wkey w _ hw]
      exact hnodup
    · intro p hp gid hgid
      rcases dictSet_mem _ _ _ _ hp with h1 | h1
      · rw [h1] at hgid
        exact hbound (wkey, w) hwmem gid hgid
      · exact hbound p h1 gid hgid
    · show num_groups (dictSet st.registry wkey _)
        = grouped_sender_count (dictSet st.registry wkey _)
      have hmap := dictSet_map_snd (fun x => x.group_id) st.registry wkey w
        { w with state := u.state, test_number := u.test_number } hw rfl
      have hcnt := dictSet_countP
        (fun x => decide (x.role = Role.sender ∧ x.group_id ≠ none))
        st.registry wkey w
        { w with state := u.state, test_number := u.test_number } hw rfl
      simp only [grouped_sender_count] at hcount ⊢
      rw [num_groups_eq_gidList, gidList, hmap, ← gidList,
        ← num_groups_eq_gidList, hcnt]
      exact hcount

/-- Helper: one assembly-loop iteration preserves the registry invariant. -/
theorem handle_frame_inv (K : Nat) (sb : Bool) (st st' : CoordState)
    (fr : String × Payload) (hinv : RegInv st)
    (h : handle_frame K sb st fr = some st') : RegInv st' := by
  rw [handle_frame] at h
  by_cases hks : (dictGet st.registry fr.1).isSome
  · rw [if_pos hks] at h
    cases hp : fr.2 with
    | create c =>
      rw [hp] at h
      cases h
    | update u =>
      rw [hp] at h
      exact update_worker_inv st st' fr.1 u hinv h
  · rw [if_neg hks] at h
    cases hp : fr.2 with
    | create c =>
      rw [hp] at h
      injection h with h
      subst h
      exact register_worker_inv st fr.1 c K sb hinv
        (Option.not_isSome_iff_eq_none.mp hks)
    | update u =>
      rw [hp] at h
      cases h

/-- Helper: the assembly loop preserves the registry invariant. -/
theorem run_frames_inv (K : Nat) (sb : Bool) (frames : List (String × Payload)) :
    ∀ st st', RegInv st → run_frames K sb st frames = some st' → RegInv st' := by
  induction frames with
  | nil =>
    intro st st' hinv h
    rw [run_frames] at h
    injection h with h
    subst h
    exact hinv
  | cons fr rest ih =>
    intro st st' hinv h
    rw [run_frames] at h
    cases hf : handle_frame K sb st fr with
    | none =>
      rw [hf] at h
      cases h
    | some st2 =>
      rw [hf] at h
      exact ih st2 st' (handle_frame_inv K sb st st2 fr hinv hf) h

/-- Helper: the fresh coordinator state satisfies the registry invariant. -/
theorem initCoordState_inv : RegInv initCoordState := by
  refine ⟨?_, ?_, ?_, ?_⟩ <;> simp [initCoordState, num_groups, grouped_sender_count]

/-- Helper: grouped senders are senders. -/
theorem grouped_le_sender (reg : Registry) :
    grouped_sender_count reg ≤ sender_count reg := by
  apply List.countP_mono_left
  intro p _ h
  simp only [decide_eq_true_eq] at h ⊢
  exact h.1

/-- C6 counterexample: with num_pairs = 1 and one receiver per sender, the
reachable interleaving in which two senders and two receivers all register
before any sync update exits the assembly loop with two groups, not exactly
one — the exit test only requires num_groups to be at least num_pairs. -/
theorem c6_counterexample :
    (run_frames 1 false initCoordState c6_frames).map
        (fun st => (assembly_ready st 1, num_groups st.registry)) = some (true, 2) := by
  rfl

/-- C6 amended: whenever the assembly loop exits, every registered worker
is CONNECTED_TO_SYNC and the number of groups is at least num_pairs — it can
exceed num_pairs when extra workers register, and equals num_pairs exactly
whenever at most num_pairs senders have registered. -/
theorem c6_assembly_exit (K P : Nat) (sb : Bool) (frames : List (String × Payload))
    (st : CoordState) (hrun : run_frames K sb initCoordState frames = some st)
    (hready : assembly_ready st P = true) :
    check_all_state st.registry WorkerState.CONNECTED_TO_SYNC = true ∧
    P ≤ num_groups st.registry ∧
    (sender_count st.registry ≤ P → num_groups st.registry = P) := by
  have hinv := run_frames_inv K sb frames initCoordState st initCoordState_inv hrun
  rw [assembly_ready, Bool.and_eq_true, decide_eq_true_eq] at hready
  refine ⟨hready.2, hready.1, ?_⟩
  intro hsc
  have h1 : num_groups st.registry = grouped_sender_count st.registry := hinv.2.2.2
  have h2 := grouped_le_sender st.registry
  omega

/-- Witness for c6_assembly_exit at the intended one-pair deployment. -/
theorem c6_assembly_exit_witness :
    (run_frames 1 false initCoordState c6_witness_frames = some c6_witness_state) ∧
    assembly_ready c6_witness_state 1 = true ∧
    check_all_state c6_witness_state.registry WorkerState.CONNECTED_TO_SYNC = true ∧
    1 ≤ num_groups c6_witness_state.registry ∧
    (sender_count c6_witness_state.registry ≤ 1 →
      num_groups c6_witness_state.registry = 1) := by
  have hrun : run_frames 1 false initCoordState c6_witness_frames
      = some c6_witness_state := by rfl
  have hready : assembly_ready c6_witness_state 1 = true := by rfl
  have h := c6_assembly_exit 1 1 false c6_witness_frames c6_witness_state hrun hready
  exact ⟨hrun, hready, h.1, h.2.1, h.2.2⟩

end HpcStreamingSkeletons
